import Mathlib

/-!
# Verification of the Hydro_Plan duration & timeline engine

Shallow embedding of `Hydrographic_Planning_v0.py` (the duration
estimation and timeline segmentation logic) and proofs about it.

Modelling conventions:
* Calendar dates (`datetime.date`, and the `pandas` timestamps they are
  converted to) are modelled as proleptic-Gregorian day ordinals, i.e.
  integers (`Date := Int`); the conversion `pd.to_datetime` is strictly
  monotone and injective on dates, so order and equality are preserved.
* Python floats are modelled as exact rationals.  The builtin
  `round(x, 2)` is modelled as exact rational rounding of `100*x` to the
  nearest integer, halves to even (`rhe` below).  All concrete values
  appearing in proofs are far from representation or tie boundaries, so
  the float/rational distinction does not affect any statement proved
  here.
* `datetime.date + datetime.timedelta(days = x)` uses only the
  normalised `days` field of the timedelta, which for the (non-negative,
  two-decimal) values produced by the program is `⌊x⌋`; the addition is
  modelled as `start + ⌊x⌋`.
-/

namespace HydroPlan

/-- Dates as proleptic Gregorian day ordinals (`datetime.date.toordinal`). -/
abbrev Date := Int

/-- `DEFAULT_SURVEY_SPEED = 5.0  # knots` — the only survey speed the
program ever uses (`Vessel.__init__` reads this module constant; there is
no per-vessel speed field). -/
def DEFAULT_SURVEY_SPEED : ℚ := 5

/-- Round to the nearest integer, halves to even: exact-rational model of
Python's `round` applied to a float. -/
def rhe (x : ℚ) : ℤ :=
  if x - ⌊x⌋ < 1/2 then ⌊x⌋
  else if 1/2 < x - ⌊x⌋ then ⌊x⌋ + 1
  else if ⌊x⌋ % 2 = 0 then ⌊x⌋ else ⌊x⌋ + 1

/-- `round(q, 2)`: round to two decimal places. -/
def round2 (q : ℚ) : ℚ := (rhe (100 * q) : ℚ) / 100

/-- `Vessel._convert_to_days`:
`return round(val / 24, 2) if unit == "hours" else val`. -/
def convert_to_days (val : ℚ) (unit : String) : ℚ :=
  if unit = "hours" then round2 (val / 24) else val

/-- The raw fields of a `Vessel` (identity modelled as a natural number;
the uuid only matters up to equality).  The derived attributes
(`survey_days`, `total_days`, `end_date`) are recomputed by
`Vessel.__init__` from these and are given as functions below. -/
structure Vessel where
  id : ℕ
  name : String
  vessel_km : ℚ
  start_date : Date
  transit_days : ℚ
  weather_days : ℚ
  maintenance_days : ℚ
deriving DecidableEq

/-- `Vessel.__init__`: stores the raw fields, normalising the three
contingency allowances through `_convert_to_days`. -/
def mkVessel (id : ℕ) (name : String) (vessel_km : ℚ) (start_date : Date)
    (transit : ℚ) (transit_unit : String)
    (weather : ℚ) (weather_unit : String)
    (maintenance : ℚ) (maintenance_unit : String) : Vessel :=
  { id := id
    name := name
    vessel_km := vessel_km
    start_date := start_date
    transit_days := convert_to_days transit transit_unit
    weather_days := convert_to_days weather weather_unit
    maintenance_days := convert_to_days maintenance maintenance_unit }

/-- `self.survey_days = round(self.vessel_km / (DEFAULT_SURVEY_SPEED * 24), 2)`. -/
def Vessel.survey_days (v : Vessel) : ℚ :=
  round2 (v.vessel_km / (DEFAULT_SURVEY_SPEED * 24))

/-- `self.total_days = round(self.survey_days + self.transit_days
 + self.weather_days + self.maintenance_days, 2)`. -/
def Vessel.total_days (v : Vessel) : ℚ :=
  round2 (v.survey_days + v.transit_days + v.weather_days + v.maintenance_days)

/-- `self.end_date = self.start_date + datetime.timedelta(days=self.total_days)`.
`date.__add__` uses only the timedelta's whole-day part, i.e. `⌊total_days⌋`. -/
def Vessel.end_date (v : Vessel) : Date :=
  v.start_date + ⌊v.total_days⌋

/-- The fields of a `Task` relevant to the engine. -/
structure Task where
  id : ℕ
  name : String
  task_type : String
  start_date : Date
  end_date : Date
  vessel_id : Option ℕ
  pause_survey : Bool
deriving DecidableEq

/-- A row appended to the timeline dataframe by `build_timeline_df`. -/
structure Segment where
  resource : String
  task : String
  type : String
  start : Date
  finish : Date
deriving DecidableEq

/-- A Survey row: `{"Resource": v.name, "Task": f"Survey → {v.name}",
"Type": "Survey", "Start": c, "Finish": f}`. -/
def surveySeg (vname : String) (c f : Date) : Segment :=
  ⟨vname, "Survey → " ++ vname, "Survey", c, f⟩

/-- A pause row: `{"Resource": v.name, "Task": t.name, "Type": t.task_type,
"Start": t.start_date, "Finish": t.end_date}`. -/
def pauseSeg (vname : String) (t : Task) : Segment :=
  ⟨vname, t.name, t.task_type, t.start_date, t.end_date⟩

/-- A row for a task with no vessel: `{"Resource": "Unassigned", ...}`. -/
def unassignedSeg (t : Task) : Segment :=
  ⟨"Unassigned", t.name, t.task_type, t.start_date, t.end_date⟩

/-- The sort key: comparison of task start dates. -/
def startLE (a b : Task) : Prop := a.start_date ≤ b.start_date

instance : DecidableRel startLE := fun _ _ => Int.decLe _ _

instance : IsTotal Task startLE := ⟨fun a b => Int.le_total _ _⟩

instance : IsTrans Task startLE := ⟨fun _ _ _ h1 h2 => le_trans h1 h2⟩

/-- The filter in `build_timeline_df`:
`t.vessel_id == v.id and t.pause_survey`. -/
def pausePred (v : Vessel) (t : Task) : Bool :=
  t.vessel_id == some v.id && t.pause_survey

/-- Python's `sorted(..., key=lambda t: pd.to_datetime(t.start_date))`:
a stable sort by start date (timsort is stable; insertion sort with the
`≤` test is the same stable sort). -/
def sortByStart (l : List Task) : List Task :=
  List.insertionSort startLE l

/-- The pause list `build_timeline_df` derives for one vessel:
`sorted([t for t in tasks if (t.vessel_id == v.id and t.pause_survey)],
key=lambda t: pd.to_datetime(t.start_date))`. -/
def pausesFor (v : Vessel) (tasks : List Task) : List Task :=
  sortByStart (tasks.filter (pausePred v))

/-- The per-vessel sweep loop of `build_timeline_df`: one pass over the
sorted pause list, with `current_start` as the cursor.  Faithful to the
source: the pause row is emitted with the task's own raw start and end
(no clamping), and the cursor is set to `t.end_date` unconditionally. -/
def sweep (vname : String) (e : Date) : Date → List Task → List Segment
  | c, [] => if c < e then [surveySeg vname c e] else []
  | c, t :: rest =>
    if t.start_date > c then
      surveySeg vname c t.start_date :: pauseSeg vname t ::
        sweep vname e t.end_date rest
    else
      pauseSeg vname t :: sweep vname e t.end_date rest

/-- The rows `build_timeline_df` emits for one vessel. -/
def buildVessel (v : Vessel) (tasks : List Task) : List Segment :=
  sweep v.name v.end_date v.start_date (pausesFor v tasks)

/-- All rows of `build_timeline_df` before the dataframe conversion: each
vessel's sweep, then one row per task with `vessel_id is None`.  (The
final pandas step only stable-sorts the rows by resource and start, a
permutation; membership of rows is decided here.) -/
def build_timeline_rows (vessels : List Vessel) (tasks : List Task) :
    List Segment :=
  (vessels.map fun v => buildVessel v tasks).flatten ++
    (tasks.filter fun t => t.vessel_id == none).map unassignedSeg

/-- The vessel/task collections of the current project. -/
structure ProjectState where
  vessels : List Vessel
  tasks : List Task

/-- The vessel delete handler:
`current_project.vessels = [x for x in current_project.vessels if x.id != v.id]`
`current_project.tasks   = [t for t in current_project.tasks   if t.vessel_id != v.id]`
(a task with `vessel_id = None` compares unequal to the string id, so it
is kept). -/
def deleteVessel (vid : ℕ) (p : ProjectState) : ProjectState :=
  { vessels := p.vessels.filter fun x => x.id != vid
    tasks := p.tasks.filter fun t => t.vessel_id != some vid }

/-- Modelled from the spec: the `2N+1` alternating
Survey/pause/…/Survey segment shape prescribed by §4.3/§8 for `N`
non-overlapping pauses strictly inside the span — stated here only to be
compared with the source's `sweep`. -/
def expectedAlternating (vname : String) (e : Date) : Date → List Task → List Segment
  | c, [] => [surveySeg vname c e]
  | c, t :: rest =>
    surveySeg vname c t.start_date :: pauseSeg vname t ::
      expectedAlternating vname e t.end_date rest

/-- Lower bound on the start of every segment `sweep` emits from cursor
`c` (proof-internal). -/
def sweepLB (c : Date) : List Task → Date
  | [] => c
  | t :: _ => min c t.start_date

/-!
### Concrete instances

Date ordinals used below (`datetime.date.toordinal`):
739250 = 2024-12-30, 739252 = 2025-01-01, 739253 = 2025-01-02,
739256 = 2025-01-05, 739262 = 2025-01-11.
-/

/-- A vessel with 60 line-km and zero contingencies starting 2025-01-01:
`survey_days = round(60/120, 2) = 0.5`, `total_days = 0.5`, and the
date arithmetic truncates to an offset of 0 whole days. -/
def v60 : Vessel := mkVessel 1 "Orca" 60 739252 0 "days" 0 "days" 0 "days"

/-- Scenario A of the spec: 120 km at the default 5 knots, start
2025-01-01, transit 1 d, weather 2 d, maintenance 0 d. -/
def vA : Vessel := mkVessel 2 "Alpha" 120 739252 1 "days" 2 "days" 0 "days"

/-- A vessel with 100 line-km and zero contingencies: the unrounded
survey duration is `100/120 = 5/6` of a day, rounded to `0.83`. -/
def v100 : Vessel := mkVessel 3 "Beta" 100 739252 0 "days" 0 "days" 0 "days"

/-- A vessel spanning 2025-01-01 .. 2025-01-11 (1200 km at 5 knots is
exactly 10 days). -/
def vC2 : Vessel := mkVessel 4 "Orca" 1200 739252 0 "days" 0 "days" 0 "days"

/-- A pause task for `vC2` running 2024-12-30 .. 2025-01-02, i.e.
starting before the vessel's start date. -/
def tC2 : Task := ⟨1, "Maint", "Maintenance", 739250, 739253, some 4, true⟩

/-- A vessel used to exercise the pause ordering. -/
def vC3 : Vessel := mkVessel 5 "Gamma" 1200 0 0 "days" 0 "days" 0 "days"

/-- A pause for `vC3` with start 0 and the later end 5. -/
def tA3 : Task := ⟨2, "A", "Weather", 0, 5, some 5, true⟩

/-- A pause for `vC3` with the same start 0 and the earlier end 3. -/
def tB3 : Task := ⟨3, "B", "Weather", 0, 3, some 5, true⟩

/-- A vessel spanning days 0 .. 10 (1200 km at 5 knots). -/
def vW : Vessel := mkVessel 6 "Wave" 1200 0 0 "days" 0 "days" 0 "days"

/-- A pause for `vW` lying strictly inside its span. -/
def tW : Task := ⟨4, "Engine", "Maintenance", 2, 3, some 6, true⟩

/-- A vessel whose fleet contains no vessel with id 99. -/
def vC7 : Vessel := mkVessel 7 "Delta" 1200 739252 0 "days" 0 "days" 0 "days"

/-- A task whose `vessel_id` (99) matches no vessel: a dangling
reference. -/
def tC7 : Task := ⟨5, "Orphan", "Sample", 739253, 739256, some 99, true⟩

/-!
## Helper lemmas
-/

theorem convert_days (val : ℚ) : convert_to_days val "days" = val := by
  simp [convert_to_days]

theorem convert_hours (val : ℚ) : convert_to_days val "hours" = round2 (val / 24) := by
  simp [convert_to_days]

/-- Rounding half-to-even moves a value by at most 1/2. -/
theorem rhe_abs_le (x : ℚ) : |(rhe x : ℚ) - x| ≤ 1/2 := by
  have h0 : (⌊x⌋ : ℚ) ≤ x := Int.floor_le x
  have h1 : x < ⌊x⌋ + 1 := Int.lt_floor_add_one x
  unfold rhe
  split_ifs with hlt hgt hev <;> rw [abs_le] <;> push_cast <;>
    constructor <;> linarith

/-- Rounding to two decimals moves a value by at most 1/200. -/
theorem round2_abs_le (q : ℚ) : |round2 q - q| ≤ 1/200 := by
  have h := rhe_abs_le (100 * q)
  have e : round2 q - q = ((rhe (100 * q) : ℚ) - 100 * q) / 100 := by
    unfold round2; ring
  rw [e, abs_div, abs_of_pos (by norm_num : (0:ℚ) < 100)]
  linarith

theorem end_date_sub_start (v : Vessel) :
    v.end_date - v.start_date = ⌊v.total_days⌋ := by
  simp [Vessel.end_date]

theorem pausesFor_sorted (v : Vessel) (ts : List Task) :
    List.Pairwise startLE (pausesFor v ts) :=
  List.sorted_insertionSort startLE _

theorem pausesFor_perm (v : Vessel) (ts : List Task) :
    List.Perm (pausesFor v ts) (ts.filter (pausePred v)) :=
  List.perm_insertionSort startLE _

theorem mem_of_mem_pausesFor {v : Vessel} {ts : List Task} {t : Task}
    (ht : t ∈ pausesFor v ts) : t ∈ ts :=
  List.mem_of_mem_filter ((pausesFor_perm v ts).mem_iff.mp ht)

/-- Inserting `a` does not disturb the relative order of the other
elements; among the elements sharing `a`'s start date it comes first
(every element it hops over has a strictly smaller start date). -/
theorem filter_start_orderedInsert (d : Date) (a : Task) :
    ∀ l : List Task,
      (List.orderedInsert startLE a l).filter (fun t => t.start_date = d) =
        if a.start_date = d then
          a :: l.filter (fun t => t.start_date = d)
        else l.filter (fun t => t.start_date = d)
  | [] => by
    by_cases had : a.start_date = d <;> simp [List.orderedInsert, had]
  | b :: l => by
    rw [List.orderedInsert]
    by_cases hab : startLE a b
    · rw [if_pos hab]
      by_cases had : a.start_date = d <;> simp [List.filter_cons, had]
    · rw [if_neg hab]
      have hba : b.start_date < a.start_date := lt_of_not_le hab
      rw [List.filter_cons, List.filter_cons, filter_start_orderedInsert d a l]
      by_cases had : a.start_date = d
      · have hbd : ¬ b.start_date = d := by
          intro h; exact absurd (h.trans had.symm) (ne_of_lt hba)
        simp [had, hbd]
      · by_cases hbd : b.start_date = d <;> simp [had, hbd]

/-- Stability of the pause sort: the elements sharing any given start
date appear in their original relative order. -/
theorem filter_start_sortByStart (d : Date) :
    ∀ l : List Task,
      (sortByStart l).filter (fun t => t.start_date = d) =
        l.filter (fun t => t.start_date = d)
  | [] => rfl
  | a :: l => by
    rw [sortByStart, List.insertionSort, filter_start_orderedInsert,
      show List.insertionSort startLE l = sortByStart l from rfl,
      filter_start_sortByStart d l, List.filter_cons]
    by_cases had : a.start_date = d <;> simp [had]

/-!
## Claims
-/

/-- C1 counterexample: the vessel `v60` (60 km, 5 kn, no contingencies)
has `total_days = 0.5` but `end_date - start_date = 0`: the round-trip
`end_date - start_date = total_days` claimed for every valid vessel
fails, because `date + timedelta` truncates the fractional day. -/
theorem C1_round_trip_fails :
    Vessel.total_days v60 = 1/2 ∧
    Vessel.end_date v60 - v60.start_date = 0 ∧
    ((Vessel.end_date v60 - v60.start_date : ℤ) : ℚ) ≠ Vessel.total_days v60 := by
  norm_num [v60, mkVessel, convert_days, Vessel.end_date, Vessel.total_days,
    Vessel.survey_days, round2, rhe, DEFAULT_SURVEY_SPEED]

/-- C1 (amended): for every valid vessel the end date is the start date
plus the *integer truncation* of `total_days`: `end_date - start_date =
⌊total_days⌋`, so the difference in days is within 1 below `total_days`
but equals it only when `total_days` is whole. -/
theorem C1_end_date_is_floor_of_total (v : Vessel)
    (hkm : 0 < v.vessel_km) (ht : 0 ≤ v.transit_days)
    (hw : 0 ≤ v.weather_days) (hm : 0 ≤ v.maintenance_days) :
    v.end_date - v.start_date = ⌊v.total_days⌋ ∧
    ((v.end_date - v.start_date : ℤ) : ℚ) ≤ v.total_days ∧
    v.total_days - 1 < ((v.end_date - v.start_date : ℤ) : ℚ) := by
  have h := end_date_sub_start v
  refine ⟨h, ?_, ?_⟩ <;> rw [h]
  · exact Int.floor_le _
  · exact Int.sub_one_lt_floor _

/-- Witness for C1 at the vessel `v60`. -/
theorem C1_end_date_is_floor_of_total_witness :
    Vessel.end_date v60 - v60.start_date = ⌊Vessel.total_days v60⌋ ∧
    ((Vessel.end_date v60 - v60.start_date : ℤ) : ℚ) ≤ Vessel.total_days v60 ∧
    Vessel.total_days v60 - 1 < ((Vessel.end_date v60 - v60.start_date : ℤ) : ℚ) :=
  C1_end_date_is_floor_of_total v60
    (by norm_num [v60, mkVessel])
    (by norm_num [v60, mkVessel, convert_days])
    (by norm_num [v60, mkVessel, convert_days])
    (by norm_num [v60, mkVessel, convert_days])

/-- C8 counterexample: for `v100` (100 km) the unrounded survey duration
is `5/6` of a day, but the program stores the rounded `0.83` and that
rounded value — not the unrounded one — is what enters `total_days` and
the date arithmetic. -/
theorem C8_rounded_value_used_for_arithmetic :
    Vessel.survey_days v100 = 83/100 ∧
    Vessel.total_days v100 = 83/100 ∧
    v100.vessel_km / (DEFAULT_SURVEY_SPEED * 24) + v100.transit_days +
      v100.weather_days + v100.maintenance_days = 5/6 ∧
    (83/100 : ℚ) ≠ 5/6 := by
  norm_num [v100, mkVessel, convert_days, Vessel.total_days,
    Vessel.survey_days, round2, rhe, DEFAULT_SURVEY_SPEED]

/-- C8 (amended): `survey_days` is `distance / (5 kn * 24)` rounded to
two decimals (the speed is the fixed module default), and the rounded
value is what later arithmetic consumes; scenario A (120 km, 5 kn,
start 2025-01-01, transit 1 d, weather 2 d, maintenance 0 d) gives
`survey_days = 1.0`, `total_days = 4.0`, `end_date = 2025-01-05`. -/
theorem C8_survey_days_scenarioA :
    (∀ v : Vessel,
      v.survey_days = round2 (v.vessel_km / (DEFAULT_SURVEY_SPEED * 24))) ∧
    Vessel.survey_days vA = 1 ∧ Vessel.total_days vA = 4 ∧
    vA.start_date = 739252 ∧ Vessel.end_date vA = 739256 := by
  refine ⟨fun v => rfl, ?_⟩
  norm_num [vA, mkVessel, convert_days, Vessel.end_date, Vessel.total_days,
    Vessel.survey_days, round2, rhe, DEFAULT_SURVEY_SPEED]

/-- C9 counterexample: one hour converts to `round(1/24, 2) = 0.04`,
not to `1/24`: the stored day value is the rounded quotient. -/
theorem C9_hours_conversion_rounds :
    convert_to_days 1 "hours" = 1/25 ∧ (1/25 : ℚ) ≠ 1/24 := by
  norm_num [convert_hours, round2, rhe]

/-- C9 (amended): hours are divided by 24 *and rounded to two decimals*
(so the stored value is within 1/200 of the exact quotient), while day
values pass through unchanged. -/
theorem C9_convert_to_days_characterisation :
    (∀ val : ℚ, convert_to_days val "hours" = round2 (val / 24)) ∧
    (∀ val : ℚ, |convert_to_days val "hours" - val / 24| ≤ 1/200) ∧
    (∀ val : ℚ, convert_to_days val "days" = val) :=
  ⟨convert_hours,
   fun val => by rw [convert_hours]; exact round2_abs_le _,
   convert_days⟩

/-- C10: deleting a vessel removes exactly the tasks referencing it: a
task survives the delete iff it was present and its `vessel_id` differs
from the deleted id (so unassigned tasks and tasks of other vessels are
kept, in their original order), and no surviving vessel has the id. -/
theorem C10_delete_vessel_cascades (vid : ℕ) (p : ProjectState) :
    (∀ t ∈ (deleteVessel vid p).tasks, t.vessel_id ≠ some vid) ∧
    (∀ t : Task,
      t ∈ (deleteVessel vid p).tasks ↔ t ∈ p.tasks ∧ t.vessel_id ≠ some vid) ∧
    (deleteVessel vid p).tasks.Sublist p.tasks ∧
    (∀ v ∈ (deleteVessel vid p).vessels, v.id ≠ vid) := by
  refine ⟨?_, ?_, List.filter_sublist _, ?_⟩
  · intro t htn
    have := (List.mem_filter.mp htn).2
    simpa using this
  · intro t
    simp [deleteVessel, List.mem_filter]
  · intro v hv
    have := (List.mem_filter.mp hv).2
    simpa using this

/-- C3 counterexample: the two pauses `tA3` (end 5) and `tB3` (end 3)
share a start date; the engine keeps them in incoming order, so the pause
with the *later* end can come first, and the two permutations of the
task collection produce different pause orders. -/
theorem C3_tie_order_depends_on_input :
    pausesFor vC3 [tA3, tB3] = [tA3, tB3] ∧
    pausesFor vC3 [tB3, tA3] = [tB3, tA3] ∧
    tA3.start_date = tB3.start_date ∧ tB3.end_date < tA3.end_date ∧
    tA3 ≠ tB3 := by
  refine ⟨by decide, by decide, by decide, by decide, by decide⟩

/-- C3 (amended): the pause list is exactly the tasks with the vessel's
id and `pause_survey` set, stably sorted by `start_date` alone: it is a
permutation of the filtered collection, it is sorted by start date, and
for each start date the tasks sharing it keep their incoming relative
order (no `end_date` tie-break, so the order of ties follows the input
collection). -/
theorem C3_pause_index_characterisation (v : Vessel) (ts : List Task) :
    List.Perm (pausesFor v ts) (ts.filter (pausePred v)) ∧
    List.Pairwise startLE (pausesFor v ts) ∧
    ∀ d : Date, (pausesFor v ts).filter (fun t => t.start_date = d) =
      (ts.filter (pausePred v)).filter (fun t => t.start_date = d) :=
  ⟨pausesFor_perm v ts, pausesFor_sorted v ts,
   fun d => filter_start_sortByStart d _⟩

/-- C5 counterexample: the vessel `v60` has `total_days = 0.5`, hence
`end_date = start_date`; with zero pause tasks the builder emits *no*
segment at all (the final Survey row needs `current_start < survey_end`,
which fails), not one Survey segment. -/
theorem C5_degenerate_span_no_segment :
    pausesFor v60 [] = [] ∧ buildVessel v60 [] = [] := by
  refine ⟨rfl, ?_⟩
  have h : Vessel.end_date v60 = 739252 := by
    norm_num [v60, mkVessel, convert_days, Vessel.end_date, Vessel.total_days,
      Vessel.survey_days, round2, rhe, DEFAULT_SURVEY_SPEED]
  rw [buildVessel, h]
  decide

/-- C5 (amended): with zero pause tasks the builder emits exactly one
Survey segment `[start_date, end_date]` when `start_date < end_date`,
and nothing when the span is degenerate (which happens exactly when
`total_days < 1`, since the end date is start plus `⌊total_days⌋`). -/
theorem C5_zero_pauses (v : Vessel) (ts : List Task)
    (h : pausesFor v ts = []) :
    buildVessel v ts =
      if v.start_date < v.end_date then
        [surveySeg v.name v.start_date v.end_date]
      else [] := by
  rw [buildVessel, h, sweep]

/-- Witness for C5 at the vessel `vA` with an empty task collection. -/
theorem C5_zero_pauses_witness :
    buildVessel vA [] =
      if vA.start_date < Vessel.end_date vA then
        [surveySeg vA.name vA.start_date (Vessel.end_date vA)]
      else [] :=
  C5_zero_pauses vA [] rfl

/-- Every pause task of the list is emitted as a row carrying its own
raw start and end dates, whatever the cursor was. -/
theorem pauseSeg_mem_sweep (vname : String) (e : Date) :
    ∀ (P : List Task) (c : Date) (t : Task), t ∈ P →
      pauseSeg vname t ∈ sweep vname e c P
  | p :: rest, c, t, ht => by
    rw [sweep]
    by_cases h : p.start_date > c
    · rw [if_pos h]
      rcases List.mem_cons.mp ht with rfl | ht'
      · exact List.mem_cons_of_mem _ (List.mem_cons_self _ _)
      · exact List.mem_cons_of_mem _ (List.mem_cons_of_mem _
          (pauseSeg_mem_sweep vname e rest p.end_date t ht'))
    · rw [if_neg h]
      rcases List.mem_cons.mp ht with rfl | ht'
      · exact List.mem_cons_self _ _
      · exact List.mem_cons_of_mem _
          (pauseSeg_mem_sweep vname e rest p.end_date t ht')

/-- C2 counterexample: the pause `tC2` (2024-12-30 .. 2025-01-02) against
the vessel `vC2` starting 2025-01-01 is emitted with start 739250 =
2024-12-30, *before* the vessel's start date 739252 — no clamping to
`max(cursor, pause.start_date)` happens, and a pre-vessel-start segment
is emitted. -/
theorem C2_no_clamping :
    buildVessel vC2 [tC2] =
      [⟨"Orca", "Maint", "Maintenance", 739250, 739253⟩,
       ⟨"Orca", "Survey → Orca", "Survey", 739253, 739262⟩] ∧
    vC2.start_date = 739252 ∧ (739250 : Date) < 739252 := by
  refine ⟨?_, by decide, by decide⟩
  have h : Vessel.end_date vC2 = 739262 := by
    norm_num [vC2, mkVessel, convert_days, Vessel.end_date, Vessel.total_days,
      Vessel.survey_days, round2, rhe, DEFAULT_SURVEY_SPEED]
  rw [buildVessel, h]
  decide

/-- C2 (amended): each pause in the vessel's pause list is emitted as a
segment spanning exactly `[pause.start_date, pause.end_date]` — the
start is *not* clamped to the cursor or to the vessel's start date, and
the cursor is then set to `pause.end_date` unconditionally; in
particular a pause starting before `vessel.start_date` produces a
segment starting before `vessel.start_date`. -/
theorem C2_pause_emitted_unclamped (v : Vessel) (ts : List Task) (t : Task)
    (ht : t ∈ pausesFor v ts) :
    pauseSeg v.name t ∈ buildVessel v ts :=
  pauseSeg_mem_sweep v.name v.end_date (pausesFor v ts) v.start_date t ht

/-- Witness for C2 at `vC2` and its early pause `tC2`. -/
theorem C2_pause_emitted_unclamped_witness :
    pauseSeg vC2.name tC2 ∈ buildVessel vC2 [tC2] :=
  C2_pause_emitted_unclamped vC2 [tC2] tC2 (by decide)

/-- C7 counterexample: with the fleet `[vC7]` (id 7) and the single task
`tC7` whose `vessel_id` is 99 (matching no vessel), the timeline rows
consist solely of the vessel's Survey segment: the dangling task appears
neither as an "Unassigned" row nor as any other row (it is silently
dropped; the code also has no warning channel). -/
theorem C7_dangling_task_dropped :
    build_timeline_rows [vC7] [tC7] =
      [⟨"Delta", "Survey → Delta", "Survey", 739252, 739262⟩] ∧
    ∀ s ∈ build_timeline_rows [vC7] [tC7],
      s.resource ≠ "Unassigned" ∧ s.task ≠ tC7.name := by
  have h : Vessel.end_date vC7 = 739262 := by
    norm_num [vC7, mkVessel, convert_days, Vessel.end_date, Vessel.total_days,
      Vessel.survey_days, round2, rhe, DEFAULT_SURVEY_SPEED]
  have hrows : build_timeline_rows [vC7] [tC7] =
      [⟨"Delta", "Survey → Delta", "Survey", 739252, 739262⟩] := by
    simp only [build_timeline_rows, buildVessel, List.map_cons, List.map_nil]
    rw [h]
    decide
  rw [hrows]
  refine ⟨rfl, ?_⟩
  decide

/-- C7 (amended): a task whose `vessel_id` is set but matches no vessel
in the fleet never makes the run fail, but it is simply *ignored*:
prepending such a task to the task collection leaves the timeline rows
unchanged — it contributes no vessel segment and no "Unassigned"
segment, and no warning is surfaced (the code has no warning path). -/
theorem C7_dangling_task_ignored (vessels : List Vessel) (tasks : List Task)
    (t : Task) (hne : t.vessel_id ≠ none)
    (hdangling : ∀ v ∈ vessels, t.vessel_id ≠ some v.id) :
    build_timeline_rows vessels (t :: tasks) =
      build_timeline_rows vessels tasks := by
  unfold build_timeline_rows
  have hmap : (vessels.map fun v => buildVessel v (t :: tasks)) =
      vessels.map fun v => buildVessel v tasks := by
    apply List.map_congr_left
    intro v hv
    unfold buildVessel pausesFor
    have h1 : pausePred v t = false := by
      have := beq_eq_false_iff_ne.mpr (hdangling v hv)
      simp [pausePred, this]
    rw [List.filter_cons, h1]
    simp
  rw [hmap]
  have h2 : (t.vessel_id == none) = false := beq_eq_false_iff_ne.mpr hne
  rw [List.filter_cons, h2]
  simp

/-- Witness for C7: prepending the dangling task `tC7` to an empty task
collection changes nothing for the fleet `[vC7]`. -/
theorem C7_dangling_task_ignored_witness :
    build_timeline_rows [vC7] [tC7] = build_timeline_rows [vC7] [] :=
  C7_dangling_task_ignored [vC7] [] tC7 (by decide) (by decide)

/-- The sweep emits segments whose start dates never decrease, and every
emitted start is bounded below by `sweepLB` (the induction invariant),
provided the pause list is sorted by start date and each pause has
`start_date ≤ end_date`. -/
theorem sweep_chain_bound (vname : String) (e : Date) :
    ∀ (P : List Task) (c : Date),
      List.Chain' startLE P →
      (∀ t ∈ P, t.start_date ≤ t.end_date) →
      List.Chain' (fun a b : Segment => a.start ≤ b.start) (sweep vname e c P) ∧
      ∀ s ∈ sweep vname e c P, sweepLB c P ≤ s.start
  | [], c, _, _ => by
    rw [sweep]
    by_cases h : c < e
    · rw [if_pos h]
      refine ⟨List.chain'_singleton _, ?_⟩
      intro s hs
      rcases List.mem_singleton.mp hs with rfl
      exact le_refl _
    · rw [if_neg h]
      exact ⟨List.chain'_nil, by simp⟩
  | t :: rest, c, hchain, hval => by
    have hch' : List.Chain' startLE rest := hchain.tail
    have hval' : ∀ u ∈ rest, u.start_date ≤ u.end_date :=
      fun u hu => hval u (List.mem_cons_of_mem _ hu)
    obtain ⟨ih1, ih2⟩ := sweep_chain_bound vname e rest t.end_date hch' hval'
    have hlb : t.start_date ≤ sweepLB t.end_date rest := by
      cases rest with
      | nil => exact hval t (List.mem_cons_self _ _)
      | cons u m =>
        exact le_min (hval t (List.mem_cons_self _ _))
          ((List.chain'_cons.mp hchain).1)
    have hhead : ∀ y ∈ (sweep vname e t.end_date rest).head?,
        t.start_date ≤ y.start := fun y hy =>
      le_trans hlb (ih2 y (List.mem_of_mem_head? hy))
    rw [sweep]
    by_cases h : t.start_date > c
    · rw [if_pos h]
      refine ⟨?_, ?_⟩
      · rw [List.chain'_cons, List.chain'_cons']
        exact ⟨le_of_lt h, hhead, ih1⟩
      · intro s hs
        rcases List.mem_cons.mp hs with rfl | hs1
        · exact min_le_left _ _
        rcases List.mem_cons.mp hs1 with rfl | hs2
        · exact min_le_right _ _
        · exact le_trans (min_le_right _ _) (le_trans hlb (ih2 s hs2))
    · rw [if_neg h]
      refine ⟨?_, ?_⟩
      · rw [List.chain'_cons']
        exact ⟨hhead, ih1⟩
      · intro s hs
        rcases List.mem_cons.mp hs with rfl | hs2
        · exact min_le_right _ _
        · exact le_trans (min_le_right _ _) (le_trans hlb (ih2 s hs2))

/-- C6: on any vessel and any task collection whose tasks satisfy the
task invariant `start_date ≤ end_date` (enforced by the application on
every create and edit), the start values of the emitted segments are
non-decreasing in emission order — even when pauses overlap one another
or start before the cursor. -/
theorem C6_starts_monotone (v : Vessel) (ts : List Task)
    (hval : ∀ t ∈ ts, t.start_date ≤ t.end_date) :
    List.Chain' (fun a b : Segment => a.start ≤ b.start) (buildVessel v ts) :=
  (sweep_chain_bound v.name v.end_date (pausesFor v ts) v.start_date
    (pausesFor_sorted v ts).chain'
    (fun t ht => hval t (mem_of_mem_pausesFor ht))).1

/-- Witness for C6 at `vC2` with the overlapping early pause `tC2`. -/
theorem C6_starts_monotone_witness :
    List.Chain' (fun a b : Segment => a.start ≤ b.start)
      (buildVessel vC2 [tC2]) :=
  C6_starts_monotone vC2 [tC2] (by decide)

/-- Sorted, valid, pairwise-disjoint pauses are strictly ordered: each
ends before the next begins. -/
theorem pairwise_disjoint_of_sorted :
    ∀ l : List Task,
      (∀ t ∈ l, t.start_date ≤ t.end_date) →
      List.Pairwise startLE l →
      List.Pairwise
        (fun a b => a.end_date < b.start_date ∨ b.end_date < a.start_date) l →
      List.Pairwise (fun a b => a.end_date < b.start_date) l
  | [] => by simp
  | a :: l => fun hval hsort hdisj => by
    rw [List.pairwise_cons] at hsort hdisj ⊢
    refine ⟨?_, pairwise_disjoint_of_sorted l
      (fun t ht => hval t (List.mem_cons_of_mem _ ht)) hsort.2 hdisj.2⟩
    intro b hb
    rcases hdisj.1 b hb with h | h
    · exact h
    · exact absurd (lt_of_lt_of_le h (le_trans (hsort.1 b hb)
        (hval b (List.mem_cons_of_mem _ hb)))) (lt_irrefl _)

/-- When every pause starts after the cursor, ends before the span end,
is well-formed, and the pauses are strictly ordered, the source's sweep
produces exactly the spec's alternating Survey/pause shape. -/
theorem sweep_eq_expected (vname : String) (e : Date) :
    ∀ (P : List Task) (c : Date),
      c < e →
      (∀ t ∈ P, c < t.start_date ∧ t.end_date < e ∧ t.start_date ≤ t.end_date) →
      List.Pairwise (fun a b => a.end_date < b.start_date) P →
      sweep vname e c P = expectedAlternating vname e c P
  | [], c, hce, _, _ => by
    rw [sweep, expectedAlternating, if_pos hce]
  | t :: rest, c, hce, hin, hpw => by
    obtain ⟨h1, h2, h3⟩ := hin t (List.mem_cons_self _ _)
    rw [List.pairwise_cons] at hpw
    rw [sweep, expectedAlternating, if_pos h1]
    congr 1
    congr 1
    exact sweep_eq_expected vname e rest t.end_date h2
      (fun u hu => ⟨hpw.1 u hu, (hin u (List.mem_cons_of_mem _ hu)).2.1,
        (hin u (List.mem_cons_of_mem _ hu)).2.2⟩)
      hpw.2

theorem expected_ne_nil (vname : String) (e : Date) :
    ∀ (P : List Task) (c : Date), expectedAlternating vname e c P ≠ []
  | [], _ => by simp [expectedAlternating]
  | _ :: _, _ => by simp [expectedAlternating]

theorem getLast?_cons_of_ne_nil {α : Type} (x : α) :
    ∀ l : List α, l ≠ [] → (x :: l).getLast? = l.getLast?
  | [], h => absurd rfl h
  | _ :: _, _ => List.getLast?_cons_cons

theorem expected_length (vname : String) (e : Date) :
    ∀ (P : List Task) (c : Date),
      (expectedAlternating vname e c P).length = 2 * P.length + 1
  | [], _ => rfl
  | t :: rest, c => by
    rw [expectedAlternating]
    simp only [List.length_cons, expected_length vname e rest t.end_date]
    ring

theorem expected_head_start (vname : String) (e : Date) :
    ∀ (P : List Task) (c : Date),
      (expectedAlternating vname e c P).head?.map Segment.start = some c
  | [], _ => rfl
  | _ :: _, _ => rfl

theorem expected_last_finish (vname : String) (e : Date) :
    ∀ (P : List Task) (c : Date),
      (expectedAlternating vname e c P).getLast?.map Segment.finish = some e
  | [], _ => rfl
  | t :: rest, c => by
    rw [expectedAlternating, List.getLast?_cons_cons,
      getLast?_cons_of_ne_nil _ _ (expected_ne_nil vname e rest t.end_date)]
    exact expected_last_finish vname e rest t.end_date

theorem expected_chain (vname : String) (e : Date) :
    ∀ (P : List Task) (c : Date),
      List.Chain' (fun a b : Segment => a.finish = b.start)
        (expectedAlternating vname e c P)
  | [], _ => List.chain'_singleton _
  | t :: rest, c => by
    rw [expectedAlternating, List.chain'_cons, List.chain'_cons']
    refine ⟨rfl, ?_, expected_chain vname e rest t.end_date⟩
    intro y hy
    have hh := expected_head_start vname e rest t.end_date
    cases hq : (expectedAlternating vname e t.end_date rest).head? with
    | none => rw [hq] at hy; cases hy
    | some z =>
      rw [hq] at hy hh
      rw [Option.mem_def, Option.some.injEq] at hy
      subst hy
      simp only [Option.map_some', Option.some.injEq] at hh
      exact hh.symm

theorem expected_valid (vname : String) (e : Date) :
    ∀ (P : List Task) (c : Date),
      c < e →
      (∀ t ∈ P, c < t.start_date ∧ t.end_date < e ∧ t.start_date ≤ t.end_date) →
      List.Pairwise (fun a b => a.end_date < b.start_date) P →
      ∀ s ∈ expectedAlternating vname e c P, s.start ≤ s.finish
  | [], c, hce, _, _ => by
    intro s hs
    rw [expectedAlternating] at hs
    rcases List.mem_singleton.mp hs with rfl
    exact le_of_lt hce
  | t :: rest, c, hce, hin, hpw => by
    intro s hs
    obtain ⟨h1, h2, h3⟩ := hin t (List.mem_cons_self _ _)
    rw [List.pairwise_cons] at hpw
    rw [expectedAlternating] at hs
    rcases List.mem_cons.mp hs with rfl | hs1
    · exact le_of_lt h1
    rcases List.mem_cons.mp hs1 with rfl | hs2
    · exact h3
    · exact expected_valid vname e rest t.end_date h2
        (fun u hu => ⟨hpw.1 u hu, (hin u (List.mem_cons_of_mem _ hu)).2.1,
          (hin u (List.mem_cons_of_mem _ hu)).2.2⟩) hpw.2 s hs2

/-- In a gap-free list of well-formed segments the first segment's finish
precedes every later segment's start. -/
theorem chain_finish_le_all (x : Segment) :
    ∀ l : List Segment,
      (∀ s ∈ l, s.start ≤ s.finish) →
      List.Chain' (fun a b : Segment => a.finish ≤ b.start) (x :: l) →
      ∀ b ∈ l, x.finish ≤ b.start
  | [], _, _ => by simp
  | y :: m, hval, hchain => by
    intro b hb
    rw [List.chain'_cons] at hchain
    rcases List.mem_cons.mp hb with rfl | hb'
    · exact hchain.1
    · have h2 := chain_finish_le_all y m
        (fun s hs => hval s (List.mem_cons_of_mem _ hs)) hchain.2 b hb'
      exact le_trans hchain.1 (le_trans (hval y (List.mem_cons_self _ _)) h2)

/-- A gap-free list of well-formed segments is pairwise non-overlapping:
any earlier segment finishes before any later one starts. -/
theorem pairwise_of_chain_segments :
    ∀ l : List Segment,
      (∀ s ∈ l, s.start ≤ s.finish) →
      List.Chain' (fun a b : Segment => a.finish ≤ b.start) l →
      List.Pairwise (fun a b : Segment => a.finish ≤ b.start) l
  | [], _, _ => List.Pairwise.nil
  | x :: m, hval, hchain => by
    rw [List.pairwise_cons]
    exact ⟨chain_finish_le_all x m
        (fun s hs => hval s (List.mem_cons_of_mem _ hs)) hchain,
      pairwise_of_chain_segments m
        (fun s hs => hval s (List.mem_cons_of_mem _ hs)) hchain.tail⟩

/-- C4 counterexample: the claim as stated also covers `N = 0`, but for
the degenerate vessel `v60` (whose `end_date` equals its `start_date`
because `total_days = 0.5` floors to 0) the builder emits 0 segments,
not `2·0 + 1 = 1`. -/
theorem C4_degenerate_span :
    pausesFor v60 [] = [] ∧
    (buildVessel v60 []).length ≠ 2 * (pausesFor v60 []).length + 1 := by
  refine ⟨rfl, ?_⟩
  have h : Vessel.end_date v60 = 739252 := by
    norm_num [v60, mkVessel, convert_days, Vessel.end_date, Vessel.total_days,
      Vessel.survey_days, round2, rhe, DEFAULT_SURVEY_SPEED]
  rw [buildVessel, h]
  decide

/-- C4 (amended): for a vessel with a non-degenerate span
(`start_date < end_date`) whose pause list consists of well-formed,
pairwise non-overlapping pauses lying strictly inside the span, the
builder returns exactly `2N+1` segments in the alternating
Survey/pause/…/Survey shape: consecutive segments share their boundary
(no gaps), the first starts at `start_date` and the last finishes at
`end_date` (exact tiling of the span), every segment is well-formed, and
the segments are pairwise non-overlapping. -/
theorem C4_alternating_tiling (v : Vessel) (ts : List Task)
    (hspan : v.start_date < v.end_date)
    (hval : ∀ t ∈ pausesFor v ts, t.start_date ≤ t.end_date)
    (hin : ∀ t ∈ pausesFor v ts,
      v.start_date < t.start_date ∧ t.end_date < v.end_date)
    (hdisj : List.Pairwise
      (fun a b => a.end_date < b.start_date ∨ b.end_date < a.start_date)
      (pausesFor v ts)) :
    buildVessel v ts =
      expectedAlternating v.name v.end_date v.start_date (pausesFor v ts) ∧
    (buildVessel v ts).length = 2 * (pausesFor v ts).length + 1 ∧
    List.Chain' (fun a b : Segment => a.finish = b.start) (buildVessel v ts) ∧
    (buildVessel v ts).head?.map Segment.start = some v.start_date ∧
    (buildVessel v ts).getLast?.map Segment.finish = some v.end_date ∧
    (∀ s ∈ buildVessel v ts, s.start ≤ s.finish) ∧
    List.Pairwise (fun a b : Segment => a.finish ≤ b.start)
      (buildVessel v ts) := by
  have hpw := pairwise_disjoint_of_sorted (pausesFor v ts) hval
    (pausesFor_sorted v ts) hdisj
  have hbundle : ∀ t ∈ pausesFor v ts,
      v.start_date < t.start_date ∧ t.end_date < v.end_date ∧
        t.start_date ≤ t.end_date :=
    fun t ht => ⟨(hin t ht).1, (hin t ht).2, hval t ht⟩
  have heq : buildVessel v ts =
      expectedAlternating v.name v.end_date v.start_date (pausesFor v ts) :=
    sweep_eq_expected v.name v.end_date (pausesFor v ts) v.start_date
      hspan hbundle hpw
  have hvalid : ∀ s ∈ buildVessel v ts, s.start ≤ s.finish := by
    rw [heq]; exact expected_valid _ _ _ _ hspan hbundle hpw
  have hchain : List.Chain' (fun a b : Segment => a.finish = b.start)
      (buildVessel v ts) := by
    rw [heq]; exact expected_chain _ _ _ _
  refine ⟨heq, ?_, hchain, ?_, ?_, hvalid, ?_⟩
  · rw [heq]; exact expected_length _ _ _ _
  · rw [heq]; exact expected_head_start _ _ _ _
  · rw [heq]; exact expected_last_finish _ _ _ _
  · exact pairwise_of_chain_segments _ hvalid
      (hchain.imp fun _ _ h => le_of_eq h)

/-- Witness for C4 at the vessel `vW` (span 0..10) and its single
strictly interior pause `tW` (2..3). -/
theorem C4_alternating_tiling_witness :
    buildVessel vW [tW] =
      expectedAlternating vW.name (Vessel.end_date vW) vW.start_date
        (pausesFor vW [tW]) ∧
    (buildVessel vW [tW]).length = 2 * (pausesFor vW [tW]).length + 1 ∧
    List.Chain' (fun a b : Segment => a.finish = b.start)
      (buildVessel vW [tW]) ∧
    (buildVessel vW [tW]).head?.map Segment.start = some vW.start_date ∧
    (buildVessel vW [tW]).getLast?.map Segment.finish =
      some (Vessel.end_date vW) ∧
    (∀ s ∈ buildVessel vW [tW], s.start ≤ s.finish) ∧
    List.Pairwise (fun a b : Segment => a.finish ≤ b.start)
      (buildVessel vW [tW]) :=
  C4_alternating_tiling vW [tW]
    (by norm_num [vW, mkVessel, convert_days, Vessel.end_date,
      Vessel.total_days, Vessel.survey_days, round2, rhe,
      DEFAULT_SURVEY_SPEED])
    (by decide)
    (by
      have h : Vessel.end_date vW = 10 := by
        norm_num [vW, mkVessel, convert_days, Vessel.end_date,
          Vessel.total_days, Vessel.survey_days, round2, rhe,
          DEFAULT_SURVEY_SPEED]
      rw [h]
      decide)
    (by decide)

end HydroPlan
